import Mathlib

/-!
# Verification of the survey-dashboard filter/aggregate pipeline

Shallow embedding of `src/app.py` (a pandas/streamlit dashboard).

Modelling conventions:
* A dataframe row is a `Record`; the dataframe is a `List Record` in source
  row order (pandas `RangeIndex` order).
* Scores are rationals (`ℚ`): the Python floats carry small survey scores
  and all arithmetic here (sums, means of four values) is exact at survey
  scale, so `ℚ` models it faithfully and makes every claim decidable.
* A possibly-missing categorical cell (`NaN` in pandas) is `Option String`
  with `none` for a missing value.
* `pd.Series.isin(sel)` on a string column is list membership; a missing
  value is never a member of a list of strings (pandas semantics: `NaN`
  matches only an explicit `NaN` in `sel`, and the selection lists built by
  the sidebar come from `dropna().unique()`, so they hold no `NaN`).
* `pd.DataFrame.sort_values(col)` is called with the default
  `kind="quicksort"`, which pandas and numpy document as NOT stable: the
  order of the sorted keys is specified, but the relative order of tied
  rows is an implementation detail (numpy's introsort is stable only in
  its small-array insertion-sort regime, and its behaviour beyond that
  varies with numpy version and CPU dispatch). The executable model here
  therefore guarantees only what the program guarantees — the sorted key
  order — and fixes one concrete tie order (a stable one, via
  `List.mergeSort` and pandas `nargsort`'s double reversal for
  `ascending=False`) purely so that the functions compute; no theorem in
  this file relies on the tie order of these sorts.
* `st.stop()` on an empty filter result is modelled as an `Except.error`
  short-circuit of the pipeline: no value past the check is computed.
-/

namespace App

/-- The four fixed question columns (`QUESTION_COLS` in app.py line 8). -/
def QUESTION_COLS : List String :=
  ["Question #1", "Question #2", "Question #3", "Question #4"]

/-- A raw CSV row before `load_data` runs: `Participant`, `Gender`, `Age`
and the four question-score columns. `Gender`/`Age` cells may be missing. -/
structure RawRecord where
  participant : String
  gender : Option String
  age : Option String
  q1 : ℚ
  q2 : ℚ
  q3 : ℚ
  q4 : ℚ
  deriving DecidableEq, Repr

/-- A loaded dataframe row: the raw columns plus the derived
`Avg Score` column (`avgScore`). -/
structure Record where
  participant : String
  gender : Option String
  age : Option String
  q1 : ℚ
  q2 : ℚ
  q3 : ℚ
  q4 : ℚ
  avgScore : ℚ
  deriving DecidableEq, Repr

/-- One row of `df["Avg Score"] = df[QUESTION_COLS].mean(axis=1)`
(app.py line 13): the derived column is the row mean of the four
question scores; every raw column is carried over unchanged. -/
def loadRecord (r : RawRecord) : Record :=
  { participant := r.participant, gender := r.gender, age := r.age,
    q1 := r.q1, q2 := r.q2, q3 := r.q3, q4 := r.q4,
    avgScore := (r.q1 + r.q2 + r.q3 + r.q4) / 4 }

/-- `load_data` (app.py lines 10-14): read the rows and append the
derived `Avg Score` column. The raw row has no average column, so the
derived value is necessarily recomputed here, never read from the source. -/
def load_data (src : List RawRecord) : List Record :=
  src.map loadRecord

/-- `df[q]` for `q = QUESTION_COLS[i]`: the i-th question score of a row. -/
def getScore (r : Record) (i : ℕ) : ℚ :=
  match i with
  | 0 => r.q1
  | 1 => r.q2
  | 2 => r.q3
  | _ => r.q4

/-- `series.isin(sel)` for one cell of a string column: membership of the
cell in the selection list; a missing cell matches nothing (the sidebar
selections contain no `NaN`, see module docstring). -/
def isinSel (v : Option String) (sel : List String) : Bool :=
  match v with
  | some s => sel.contains s
  | none => false

/-- The row predicate of app.py line 43:
`df["Gender"].isin(gender_filter) & df["Age"].isin(age_filter)`. -/
def keepRow (genders ages : List String) (r : Record) : Bool :=
  isinSel r.gender genders && isinSel r.age ages

/-- `filtered = df[df["Gender"].isin(gender_filter) & df["Age"].isin(age_filter)].copy()`
(app.py line 43): boolean-mask row selection, i.e. `List.filter`. -/
def filtered (df : List Record) (genders ages : List String) : List Record :=
  df.filter (keepRow genders ages)

/-- `sorted(col.dropna().unique())` (app.py lines 34, 39): the distinct
non-missing values of a column, sorted. `unique()` keeps first
occurrences, but after `dedup` the values are distinct, so sorting yields
the same list regardless of which occurrence survived. -/
def sortedOptions (col : List (Option String)) : List String :=
  ((col.filterMap id).dedup).mergeSort (fun a b => decide (a ≤ b))

/-- The full `Gender` option list of the sidebar (app.py line 34), which
is also its default selection (line 35). -/
def gender_filter (df : List Record) : List String :=
  sortedOptions (df.map (·.gender))

/-- The full `Age` option list of the sidebar (app.py line 39), which is
also its default selection (line 40). -/
def age_filter (df : List Record) : List String :=
  sortedOptions (df.map (·.age))

/-- One output row of `df.melt(id_vars=..., value_vars=QUESTION_COLS,
var_name="Question", value_name="Score")`: the id columns, the question
label, and that question's score. -/
structure LongRow where
  participant : String
  gender : Option String
  age : Option String
  avgScore : ℚ
  question : String
  score : ℚ
  deriving DecidableEq, Repr

/-- The melt row for record `r` and question index `i`. -/
def meltRow (r : Record) (i : ℕ) : LongRow :=
  { participant := r.participant, gender := r.gender, age := r.age,
    avgScore := r.avgScore, question := QUESTION_COLS.getD i "",
    score := getScore r i }

/-- `to_long` (app.py lines 16-22): `df.melt(...)`. pandas `melt` emits
the blocks value-column by value-column (`np.tile` of the id columns and a
column-major `ravel` of the value columns): all rows for Question #1 in
record order, then all rows for Question #2, and so on. -/
def to_long (df : List Record) : List LongRow :=
  (List.range QUESTION_COLS.length).flatMap (fun i => df.map (fun r => meltRow r i))

/-- The scan of pandas `Series.idxmax` (app.py line 60) restricted to a
nonempty list: fold from the left, replacing the champion only on a
strictly greater value, so the first row attaining the maximum wins. -/
def best_of (r : Record) (rs : List Record) : Record :=
  rs.foldl (fun b x => if b.avgScore < x.avgScore then x else b) r

/-- The scan of pandas `Series.idxmin` (app.py line 61): the first row
attaining the minimum wins. -/
def worst_of (r : Record) (rs : List Record) : Record :=
  rs.foldl (fun b x => if x.avgScore < b.avgScore then x else b) r

/-- `filtered.loc[filtered["Avg Score"].idxmax()]` (app.py line 60):
the first record with maximal `Avg Score`; `none` on an empty frame
(where pandas `idxmax` raises). -/
def best_row (df : List Record) : Option Record :=
  match df with
  | [] => none
  | r :: rs => some (best_of r rs)

/-- `filtered.loc[filtered["Avg Score"].idxmin()]` (app.py line 61). -/
def worst_row (df : List Record) : Option Record :=
  match df with
  | [] => none
  | r :: rs => some (worst_of r rs)

/-- `filtered['Avg Score'].mean()` (app.py line 65). -/
def meanAvgScore (df : List Record) : ℚ :=
  (df.map (·.avgScore)).sum / df.length

/-- The overview scalars of app.py lines 60-75: participant count, mean
of `Avg Score`, and the extreme rows. -/
structure Summary where
  count : ℕ
  mean_avg_score : ℚ
  best : Record
  worst : Record
  deriving DecidableEq, Repr

/-- `summarize`: the overview block (app.py lines 60-75) over a table;
`none` when the table is empty (the app never reaches it then, see
`pipeline`). -/
def summarize (df : List Record) : Option Summary :=
  match df with
  | [] => none
  | r :: rs =>
      some { count := (r :: rs).length,
             mean_avg_score := meanAvgScore (r :: rs),
             best := best_of r rs,
             worst := worst_of r rs }

/-- pandas `sort_values(col, ascending=True)` with the default unstable
kind: the program specifies only that the result is sorted ascending by
the key; the tie order is an implementation detail the source does not
determine. This model fixes one tie order (stable) so the function
computes; no theorem relies on it — see module docstring. -/
def sort_values_asc {α : Type} (key : α → ℚ) (l : List α) : List α :=
  l.mergeSort (fun a b => decide (key a ≤ key b))

/-- pandas `sort_values(col, ascending=False)` with the default unstable
kind, via `nargsort`'s reverse / argsort / reverse. As with
`sort_values_asc`, only the descending key order is a property of the
program; the tie order fixed here is a modelling choice no theorem
relies on. -/
def sort_values_desc {α : Type} (key : α → ℚ) (l : List α) : List α :=
  ((l.reverse).mergeSort (fun a b => decide (key a ≤ key b))).reverse

/-- A row of the ranking frame
`filtered[["Participant", "Avg Score", "Gender", "Age"]]` (app.py line 241). -/
structure RankRow where
  participant : String
  avgScore : ℚ
  gender : Option String
  age : Option String
  deriving DecidableEq, Repr

/-- Column projection of app.py line 241. -/
def toRankRow (r : Record) : RankRow :=
  { participant := r.participant, avgScore := r.avgScore,
    gender := r.gender, age := r.age }

/-- `ranking` (app.py lines 240-245): project the four columns, sort
descending by `Avg Score`, `reset_index(drop=True)`, and set
`Rank = index + 1`. The relative order of rows with equal `Avg Score`
is inherited from the unstable default sort — see `sort_values_desc`. -/
def ranking (df : List Record) : List (ℕ × RankRow) :=
  ((sort_values_desc RankRow.avgScore (df.map toRankRow)).enum).map
    (fun p => (p.1 + 1, p.2))

/-- A row of the question-view frame
`q_df = filtered[["Participant", "Gender", "Age", q]].rename(columns={q: "Score"})`
(app.py line 253). -/
structure QRow where
  participant : String
  gender : Option String
  age : Option String
  score : ℚ
  deriving DecidableEq, Repr

/-- `q_df` (app.py line 253) for question index `i`. -/
def q_df (df : List Record) (i : ℕ) : List QRow :=
  df.map (fun r =>
    { participant := r.participant, gender := r.gender, age := r.age,
      score := getScore r i })

/-- `top = q_df.sort_values("Score", ascending=False).head(n)`
(app.py line 293; the app instantiates `n = 5`). Which of several rows
tied at the cutoff score are kept follows the unstable default sort —
see `sort_values_desc`. -/
def top (q : List QRow) (n : ℕ) : List QRow :=
  (sort_values_desc QRow.score q).take n

/-- `bottom = q_df.sort_values("Score", ascending=True).head(n)`
(app.py line 294; the app instantiates `n = 5`); same tie caveat as
`top`. -/
def bottom (q : List QRow) (n : ℕ) : List QRow :=
  (sort_values_asc QRow.score q).take n

/-- The recoverable empty-filter condition: app.py lines 44-46 warn and
`st.stop()` when `filtered.empty`. -/
inductive EmptyResult where
  | emptyResult
  deriving DecidableEq, Repr

/-- Everything the page computes downstream of the empty check: the
filtered table, the long form, the overview summary, and the ranking. -/
structure DashboardData where
  table : List Record
  long : List LongRow
  summary : Summary
  ranking : List (ℕ × RankRow)
  deriving DecidableEq, Repr

/-- The page flow around app.py lines 43-48 and the downstream
aggregates: filter, and if the result is empty stop (`Except.error`)
before any aggregate is computed; otherwise compute them all. -/
def pipeline (df : List Record) (genders ages : List String) :
    Except EmptyResult DashboardData :=
  match filtered df genders ages with
  | [] => Except.error EmptyResult.emptyResult
  | r :: rs =>
      Except.ok
        { table := r :: rs,
          long := to_long (r :: rs),
          summary := { count := (r :: rs).length,
                       mean_avg_score := meanAvgScore (r :: rs),
                       best := best_of r rs,
                       worst := worst_of r rs },
          ranking := ranking (r :: rs) }

/-- `b` is the first record of `l` attaining the maximal `avgScore`:
everything before it is strictly smaller, everything after it is no
larger. This is the contract of pandas `idxmax`. -/
def IsFirstMax (l : List Record) (b : Record) : Prop :=
  ∃ l₁ l₂, l = l₁ ++ b :: l₂ ∧ (∀ r ∈ l₁, r.avgScore < b.avgScore) ∧
    (∀ r ∈ l₂, r.avgScore ≤ b.avgScore)

/-- `w` is the first record of `l` attaining the minimal `avgScore`:
the contract of pandas `idxmin`. -/
def IsFirstMin (l : List Record) (w : Record) : Prop :=
  ∃ l₁ l₂, l = l₁ ++ w :: l₂ ∧ (∀ r ∈ l₁, w.avgScore < r.avgScore) ∧
    (∀ r ∈ l₂, w.avgScore ≤ r.avgScore)

/-! ## Helper lemmas about the idxmax/idxmin scans -/

theorem isFirstMax_all_le {l : List Record} {b : Record} (h : IsFirstMax l b) :
    ∀ s ∈ l, s.avgScore ≤ b.avgScore := by
  obtain ⟨l₁, l₂, rfl, h₁, h₂⟩ := h
  intro s hs
  rcases List.mem_append.mp hs with hs | hs
  · exact le_of_lt (h₁ s hs)
  · rcases List.mem_cons.mp hs with rfl | hs
    · exact le_refl _
    · exact h₂ s hs

theorem isFirstMin_all_ge {l : List Record} {w : Record} (h : IsFirstMin l w) :
    ∀ s ∈ l, w.avgScore ≤ s.avgScore := by
  obtain ⟨l₁, l₂, rfl, h₁, h₂⟩ := h
  intro s hs
  rcases List.mem_append.mp hs with hs | hs
  · exact le_of_lt (h₁ s hs)
  · rcases List.mem_cons.mp hs with rfl | hs
    · exact le_refl _
    · exact h₂ s hs

theorem best_of_cons (r x : Record) (l : List Record) :
    best_of r (x :: l) = best_of (if r.avgScore < x.avgScore then x else r) l := rfl

theorem worst_of_cons (r x : Record) (l : List Record) :
    worst_of r (x :: l) = worst_of (if x.avgScore < r.avgScore then x else r) l := rfl

/-- The `idxmax` scan returns the first row attaining the maximum. -/
theorem best_of_isFirstMax (r : Record) (rs : List Record) :
    IsFirstMax (r :: rs) (best_of r rs) := by
  induction rs generalizing r with
  | nil => exact ⟨[], [], rfl, by simp, by simp⟩
  | cons x l ih =>
    rw [best_of_cons]
    by_cases h : r.avgScore < x.avgScore
    · rw [if_pos h]
      obtain ⟨l₁, l₂, heq, h₁, h₂⟩ := ih x
      have hle : x.avgScore ≤ (best_of x l).avgScore :=
        isFirstMax_all_le ⟨l₁, l₂, heq, h₁, h₂⟩ x (List.mem_cons_self x l)
      refine ⟨r :: l₁, l₂, ?_, ?_, h₂⟩
      · rw [List.cons_append, ← heq]
      · intro s hs
        rcases List.mem_cons.mp hs with rfl | hs
        · exact lt_of_lt_of_le h hle
        · exact h₁ s hs
    · rw [if_neg h]
      push_neg at h
      obtain ⟨l₁, l₂, heq, h₁, h₂⟩ := ih r
      cases l₁ with
      | nil =>
        rw [List.nil_append] at heq
        injection heq with hb hl
        refine ⟨[], x :: l, ?_, by simp, ?_⟩
        · rw [List.nil_append, ← hb]
        · intro s hs
          rcases List.mem_cons.mp hs with rfl | hs
          · rw [← hb]; exact h
          · exact h₂ s (hl ▸ hs)
      | cons r2 t =>
        rw [List.cons_append] at heq
        injection heq with hr hl
        subst hr
        refine ⟨r :: x :: t, l₂, ?_, ?_, h₂⟩
        · rw [List.cons_append, List.cons_append]
          exact congrArg (List.cons r) (congrArg (List.cons x) hl)
        · intro s hs
          have hrb : r.avgScore < (best_of r l).avgScore := h₁ r (List.mem_cons_self r t)
          rcases List.mem_cons.mp hs with rfl | hs2
          · exact hrb
          · rcases List.mem_cons.mp hs2 with rfl | hs3
            · exact lt_of_le_of_lt h hrb
            · exact h₁ s (List.mem_cons_of_mem r hs3)

/-- The `idxmin` scan returns the first row attaining the minimum. -/
theorem worst_of_isFirstMin (r : Record) (rs : List Record) :
    IsFirstMin (r :: rs) (worst_of r rs) := by
  induction rs generalizing r with
  | nil => exact ⟨[], [], rfl, by simp, by simp⟩
  | cons x l ih =>
    rw [worst_of_cons]
    by_cases h : x.avgScore < r.avgScore
    · rw [if_pos h]
      obtain ⟨l₁, l₂, heq, h₁, h₂⟩ := ih x
      have hle : (worst_of x l).avgScore ≤ x.avgScore :=
        isFirstMin_all_ge ⟨l₁, l₂, heq, h₁, h₂⟩ x (List.mem_cons_self x l)
      refine ⟨r :: l₁, l₂, ?_, ?_, h₂⟩
      · rw [List.cons_append, ← heq]
      · intro s hs
        rcases List.mem_cons.mp hs with rfl | hs
        · exact lt_of_le_of_lt hle h
        · exact h₁ s hs
    · rw [if_neg h]
      push_neg at h
      obtain ⟨l₁, l₂, heq, h₁, h₂⟩ := ih r
      cases l₁ with
      | nil =>
        rw [List.nil_append] at heq
        injection heq with hb hl
        refine ⟨[], x :: l, ?_, by simp, ?_⟩
        · rw [List.nil_append, ← hb]
        · intro s hs
          rcases List.mem_cons.mp hs with rfl | hs
          · rw [← hb]; exact h
          · exact h₂ s (hl ▸ hs)
      | cons r2 t =>
        rw [List.cons_append] at heq
        injection heq with hr hl
        subst hr
        refine ⟨r :: x :: t, l₂, ?_, ?_, h₂⟩
        · rw [List.cons_append, List.cons_append]
          exact congrArg (List.cons r) (congrArg (List.cons x) hl)
        · intro s hs
          have hrb : (worst_of r l).avgScore < r.avgScore := h₁ r (List.mem_cons_self r t)
          rcases List.mem_cons.mp hs with rfl | hs2
          · exact hrb
          · rcases List.mem_cons.mp hs2 with rfl | hs3
            · exact lt_of_lt_of_le hrb h
            · exact h₁ s (List.mem_cons_of_mem r hs3)

/-! ## Helper lemmas about the long form -/

theorem to_long_blocks (df : List Record) :
    to_long df =
      df.map (fun r => meltRow r 0) ++ (df.map (fun r => meltRow r 1) ++
        (df.map (fun r => meltRow r 2) ++ df.map (fun r => meltRow r 3))) := by
  have h4 : QUESTION_COLS.length = 4 := rfl
  have hr : List.range 4 = [0, 1, 2, 3] := rfl
  rw [to_long, h4, hr]
  simp [List.flatMap_cons]

/-! ## Concrete example rows (the worked example of the spec, section 8) -/

/-- Raw row of participant P1 from the spec example. -/
def rawM : RawRecord :=
  { participant := "P1", gender := some "M", age := some "18-25",
    q1 := 5, q2 := 6, q3 := 7, q4 := 4 }

/-- Raw row of participant P2 from the spec example. -/
def rawF : RawRecord :=
  { participant := "P2", gender := some "F", age := some "26-35",
    q1 := 2, q2 := 2, q3 := 2, q4 := 2 }

/-- Loaded row of participant P1. -/
def recM : Record := loadRecord rawM

/-- Loaded row of participant P2. -/
def recF : Record := loadRecord rawF

/-- A loaded row with a missing `Gender` cell. -/
def recN : Record :=
  { participant := "P3", gender := none, age := some "18-25",
    q1 := 5, q2 := 5, q3 := 5, q4 := 5, avgScore := 5 }

/-! ## Membership helper lemmas -/

theorem isinSel_some_iff {s : String} {sel : List String} :
    isinSel (some s) sel = true ↔ s ∈ sel := by
  simp [isinSel]

theorem mem_sortedOptions {col : List (Option String)} {s : String} :
    s ∈ sortedOptions col ↔ some s ∈ col := by
  simp [sortedOptions]

/-- The row predicate of the filter, in spec terms: the gender cell holds
a member of the gender selection and the age cell holds a member of the
age selection. -/
theorem keepRow_iff {genders ages : List String} {r : Record} :
    keepRow genders ages r = true ↔
      (∃ g, r.gender = some g ∧ g ∈ genders) ∧
      (∃ a, r.age = some a ∧ a ∈ ages) := by
  rw [keepRow, Bool.and_eq_true]
  constructor
  · rintro ⟨hg, ha⟩
    rcases hgen : r.gender with _ | g
    · rw [hgen] at hg; exact absurd hg (by simp [isinSel])
    rcases hage : r.age with _ | a
    · rw [hage] at ha; exact absurd ha (by simp [isinSel])
    rw [hgen] at hg
    rw [hage] at ha
    exact ⟨⟨g, rfl, isinSel_some_iff.mp hg⟩, ⟨a, rfl, isinSel_some_iff.mp ha⟩⟩
  · rintro ⟨⟨g, hgen, hg⟩, ⟨a, hage, ha⟩⟩
    rw [hgen, hage]
    exact ⟨isinSel_some_iff.mpr hg, isinSel_some_iff.mpr ha⟩

/-! ## Claim theorems -/

/-- C1: the filter keeps exactly the records whose gender is a member of
the selected genders and whose age group is a member of the selected ages,
and no others — both as a membership characterisation and with
multiplicity. -/
theorem C1_filter_keeps_exactly_matching (df : List Record)
    (genders ages : List String) (r : Record) :
    (r ∈ filtered df genders ages ↔
      r ∈ df ∧ (∃ g, r.gender = some g ∧ g ∈ genders) ∧
        (∃ a, r.age = some a ∧ a ∈ ages)) ∧
    (filtered df genders ages).count r =
      (if keepRow genders ages r then df.count r else 0) := by
  constructor
  · rw [filtered, List.mem_filter, keepRow_iff]
  · by_cases h : keepRow genders ages r = true
    · rw [if_pos h, filtered, List.count_filter h]
    · rw [if_neg h, List.count_eq_zero]
      intro hmem
      exact h (List.mem_filter.mp hmem).2

/-- C2: every loaded record's `avg_score` equals the arithmetic mean of
its four question scores exactly — hence within the 1e-9 tolerance — and
`load_data` recomputes it from the scores (a raw row has no average
column it could be read from). -/
theorem C2_avg_score_is_mean (src : List RawRecord) (r : Record)
    (h : r ∈ load_data src) :
    r.avgScore = (r.q1 + r.q2 + r.q3 + r.q4) / 4 ∧
    |r.avgScore - (r.q1 + r.q2 + r.q3 + r.q4) / 4| ≤ 1 / 1000000000 := by
  obtain ⟨raw, hmem, rfl⟩ := List.mem_map.mp h
  refine ⟨rfl, ?_⟩
  norm_num [loadRecord]

/-- Witness for C2 at the example row P1. -/
theorem C2_avg_score_is_mean_witness :
    recM.avgScore = (recM.q1 + recM.q2 + recM.q3 + recM.q4) / 4 ∧
    |recM.avgScore - (recM.q1 + recM.q2 + recM.q3 + recM.q4) / 4| ≤ 1 / 1000000000 :=
  C2_avg_score_is_mean [rawM] recM (List.mem_singleton.mpr rfl)

/-- C5: an empty gender selection or an empty age selection filters out
every record, and an empty filter result makes the pipeline stop with
`EmptyResult` — and only then — so no downstream aggregate is computed
over zero records. -/
theorem C5_empty_selection_stops_pipeline (df : List Record)
    (genders ages : List String) :
    filtered df [] ages = [] ∧
    filtered df genders [] = [] ∧
    (filtered df genders ages = [] →
      pipeline df genders ages = Except.error EmptyResult.emptyResult) ∧
    (pipeline df genders ages = Except.error EmptyResult.emptyResult →
      filtered df genders ages = []) := by
  have hnil : ∀ v : Option String, isinSel v [] = false := by
    intro v
    cases v <;> rfl
  refine ⟨?_, ?_, ?_, ?_⟩
  · rw [filtered, List.filter_eq_nil_iff]
    intro r hr
    simp [keepRow, hnil]
  · rw [filtered, List.filter_eq_nil_iff]
    intro r hr
    simp [keepRow, hnil]
  · intro h
    simp [pipeline, h]
  · intro h
    cases hf : filtered df genders ages with
    | nil => rfl
    | cons r rs => simp [pipeline, hf] at h

/-- Witness for C5: a table with one male record and an empty gender
selection. -/
theorem C5_empty_selection_stops_pipeline_witness :
    pipeline [recM] [] ["18-25"] = Except.error EmptyResult.emptyResult :=
  (C5_empty_selection_stops_pipeline [recM] [] ["18-25"]).2.2.1 (by decide)

/-- C8: the filter result is an order-preserving subsequence of the
source table (hence nothing is duplicated or reordered); the source is a
value the pure filter never mutates. -/
theorem C8_filter_subsequence (df : List Record) (genders ages : List String) :
    (filtered df genders ages).Sublist df ∧
    ∀ r : Record, (filtered df genders ages).count r ≤ df.count r :=
  ⟨List.filter_sublist df, fun r => (List.filter_sublist df).count_le r⟩

/-- C10: a record with a missing gender or age cell is excluded by every
filter selection — in particular by the full default selections built
from the non-null distinct values — because a missing cell never passes
the membership test. -/
theorem C10_missing_value_excluded (df : List Record)
    (genders ages : List String) (r : Record)
    (hmiss : r.gender = none ∨ r.age = none) :
    r ∉ filtered df genders ages ∧
    ∀ sel : List String, isinSel none sel = false := by
  refine ⟨?_, fun sel => rfl⟩
  intro hmem
  have h := (List.mem_filter.mp hmem).2
  rcases hmiss with hg | ha
  · rw [keepRow, hg] at h
    simp [isinSel] at h
  · rw [keepRow, ha] at h
    simp [isinSel] at h

/-- Witness for C10: the record with a missing gender, against the full
default selections of its own one-record table. -/
theorem C10_missing_value_excluded_witness :
    recN ∉ filtered [recN] (gender_filter [recN]) (age_filter [recN]) ∧
    ∀ sel : List String, isinSel none sel = false :=
  C10_missing_value_excluded [recN] (gender_filter [recN]) (age_filter [recN])
    recN (Or.inl rfl)

/-- C6: for a nonempty table the overview summary has `count` = number of
records, `mean_avg_score` = the arithmetic mean of `avg_score`, and
`best`/`worst` are the first records in table order attaining the
maximal/minimal `avg_score`. -/
theorem C6_summarize_correct (df : List Record) (s : Summary)
    (h : summarize df = some s) :
    s.count = df.length ∧
    s.mean_avg_score = (df.map (·.avgScore)).sum / df.length ∧
    IsFirstMax df s.best ∧ IsFirstMin df s.worst := by
  cases df with
  | nil => exact absurd h (by simp [summarize])
  | cons r rs =>
    simp only [summarize, Option.some.injEq] at h
    subst h
    exact ⟨rfl, rfl, best_of_isFirstMax r rs, worst_of_isFirstMin r rs⟩

/-- Witness for C6 at the two-record spec example: count 2, mean 15/4,
best P1, worst P2. -/
theorem C6_summarize_correct_witness :
    (Summary.mk 2 (15/4) recM recF).count = [recM, recF].length ∧
    (Summary.mk 2 (15/4) recM recF).mean_avg_score =
      ([recM, recF].map (·.avgScore)).sum / [recM, recF].length ∧
    IsFirstMax [recM, recF] (Summary.mk 2 (15/4) recM recF).best ∧
    IsFirstMin [recM, recF] (Summary.mk 2 (15/4) recM recF).worst :=
  C6_summarize_correct [recM, recF] (Summary.mk 2 (15/4) recM recF) (by
    norm_num [summarize, meanAvgScore, best_of, worst_of, recM, recF, rawM, rawF,
      loadRecord])

/-- C7 is refuted as stated: on a table whose only record has a missing
gender cell, filtering with the full default selections (all gender and
age values occurring, per the sidebar option lists) drops that record, so
the filter is not the identity there. -/
theorem C7_counterexample :
    filtered [recN] (gender_filter [recN]) (age_filter [recN]) ≠ [recN] := by
  have hres : filtered [recN] (gender_filter [recN]) (age_filter [recN]) = [] := by
    simp [filtered, List.filter_cons, keepRow, isinSel, recN]
  rw [hres]
  simp

/-- C7 (amended): on every table in which no record has a missing gender
or age cell, filtering with the full default selections (all distinct
non-null gender and age values occurring in the table) returns the input
unchanged. -/
theorem C7_full_selection_identity (df : List Record)
    (h : ∀ r ∈ df, r.gender ≠ none ∧ r.age ≠ none) :
    filtered df (gender_filter df) (age_filter df) = df := by
  rw [filtered, List.filter_eq_self]
  intro r hr
  obtain ⟨hg, ha⟩ := h r hr
  rcases hgen : r.gender with _ | g
  · exact absurd hgen hg
  rcases hage : r.age with _ | a
  · exact absurd hage ha
  have hg2 : g ∈ gender_filter df :=
    mem_sortedOptions.mpr (List.mem_map.mpr ⟨r, hr, hgen⟩)
  have ha2 : a ∈ age_filter df :=
    mem_sortedOptions.mpr (List.mem_map.mpr ⟨r, hr, hage⟩)
  rw [keepRow, hgen, hage, isinSel_some_iff.mpr hg2, isinSel_some_iff.mpr ha2,
    Bool.and_self]

/-- Witness for C7 (amended) at the two-record spec example. -/
theorem C7_full_selection_identity_witness :
    filtered [recM, recF] (gender_filter [recM, recF]) (age_filter [recM, recF]) =
      [recM, recF] :=
  C7_full_selection_identity [recM, recF] (by decide)

/-- C3 is refuted as stated: pandas `melt` emits question-major order, so
on the two-record example the long form does not list record 1's four
rows first — its participant column alternates P1, P2 instead. -/
theorem C3_counterexample :
    (to_long [recM, recF]).map LongRow.participant ≠
      ["P1", "P1", "P1", "P1", "P2", "P2", "P2", "P2"] ∧
    (to_long [recM, recF]).map LongRow.participant =
      ["P1", "P2", "P1", "P2", "P1", "P2", "P1", "P2"] := by
  constructor <;> decide

/-- Indexing into the second block of an append. -/
theorem getElem_append_block {α : Type} (A B : List α) (k : ℕ) :
    (A ++ B)[A.length + k]? = B[k]? := by
  rw [List.getElem?_append_right (Nat.le_add_right _ _), Nat.add_sub_cancel_left]

/-- C3 (amended): `to_long` emits exactly `4 × count` rows, one per
(record, question) pair, in question-major order: position
`qi * count + i` holds record `i`'s row for question `qi`, carrying that
record's original score, and every emitted row arises this way. -/
theorem C3_long_form_shape (df : List Record) :
    (to_long df).length = 4 * df.length ∧
    (∀ qi i : ℕ, qi < 4 → i < df.length →
      (to_long df)[qi * df.length + i]? = (df[i]?).map (fun r => meltRow r qi)) ∧
    (∀ lr ∈ to_long df, ∃ r ∈ df, ∃ qi : ℕ, qi < 4 ∧ lr = meltRow r qi ∧
      lr.score = getScore r qi) := by
  refine ⟨?_, ?_, ?_⟩
  · rw [to_long_blocks]
    simp only [List.length_append, List.length_map]
    omega
  · intro qi i hq hi
    rw [to_long_blocks]
    interval_cases qi
    · rw [Nat.zero_mul, Nat.zero_add,
        List.getElem?_append_left (by simpa using hi), List.getElem?_map]
    · have hidx : 1 * df.length + i = (df.map (fun r => meltRow r 0)).length + i := by
        simp only [List.length_map]
        omega
      rw [hidx, getElem_append_block,
        List.getElem?_append_left (by simpa using hi), List.getElem?_map]
    · have hidx : 2 * df.length + i = (df.map (fun r => meltRow r 0)).length +
          ((df.map (fun r => meltRow r 1)).length + i) := by
        simp only [List.length_map]
        omega
      rw [hidx, getElem_append_block, getElem_append_block,
        List.getElem?_append_left (by simpa using hi), List.getElem?_map]
    · have hidx : 3 * df.length + i = (df.map (fun r => meltRow r 0)).length +
          ((df.map (fun r => meltRow r 1)).length +
            ((df.map (fun r => meltRow r 2)).length + i)) := by
        simp only [List.length_map]
        omega
      rw [hidx, getElem_append_block, getElem_append_block, getElem_append_block,
        List.getElem?_map]
  · intro lr hlr
    rw [to_long] at hlr
    obtain ⟨qi, hqi, hmm⟩ := List.mem_flatMap.mp hlr
    obtain ⟨r, hr, rfl⟩ := List.mem_map.mp hmm
    exact ⟨r, hr, qi, by simpa using List.mem_range.mp hqi, rfl, rfl⟩

/-- Witness for C3 (amended): row at position `1 * 2 + 1` of the
two-record example's long form is record 2's Question #2 row. -/
theorem C3_long_form_shape_witness :
    (to_long [recM, recF])[1 * ([recM, recF] : List Record).length + 1]? =
      (([recM, recF] : List Record)[1]?).map (fun r => meltRow r 1) :=
  (C3_long_form_shape [recM, recF]).2.1 1 1 (by decide) (by decide)

end App

